import Mathlib

/-!
Verification of the genesis testnet orchestrator.

Shallow embedding of the core data model and operations:
`TestNet` aggregate (`NewTestNet`, `AddNode`, `AddDetails`, `StoreNodes`),
the SSH client shims (`Run`, `DockerExecdLog`), the fan-out helper
`CreateConfigs`, the tendermint start fan-out, the REST handlers
(`handleNetAll`, `addOutage`) and the row store (`InsertNode`).
Go slices are modelled as Lean lists, Go `map[string]string` as association
lists (the nil map and the empty map are identified, which is sound for the
properties considered here: only content is observed, never map identity),
and fallible calls as `Except`/`Option` parameters so each control path of
the source is represented explicitly.
-/

namespace Genesis

/-- A Go `map[string]string`, as an association list. -/
abbrev FileMap := List (String × String)

/-- db.DeploymentDetails (the request payload).  The struct itself is not
under src/; its field list is taken from spec §3: servers, node count,
images, files, plus a scalar field (`blockchain`).  Counts are modelled as
`Nat`. -/
structure DeploymentDetails where
  servers : List Nat
  blockchain : String
  nodes : Nat
  images : List String
  files : List FileMap
  deriving Repr, DecidableEq

/-- The merge of the `Files` field performed by `TestNet.AddDetails`
(testnet.go lines 139-152).  The statement `tn.CombinedDetails.Files = oldCD.Files`
restores the old files after the JSON round-trip; when `dd.Files` is
non-empty the list is padded with empty maps up to the previous node count
(the `make` branch for a nil old list and the padding loop coincide under
the nil/empty identification) and then extended with `dd.Files`. -/
def addDetailsFiles (oldFiles : List FileMap) (oldNodes : Nat) (ddFiles : List FileMap) :
    List FileMap :=
  if 0 < ddFiles.length then
    (oldFiles ++ List.replicate (oldNodes - oldFiles.length) ([] : FileMap)) ++ ddFiles
  else
    oldFiles

/-- The merge of the `Images` field performed by `TestNet.AddDetails`
(testnet.go lines 157-170).  Unlike `Files`, the old value is NOT restored
after `json.Unmarshal(tmp, &tn.CombinedDetails)`: since `dd` was fully
marshalled, the unmarshal has already replaced `CombinedDetails.Images`
with `dd.Images`, so the padding loop appends `dd.Images[0]` (the first
element of the new images) up to the previous node count and then the loop
over `dd.Images` appends the new images once more. -/
def addDetailsImages (oldNodes : Nat) (ddImages : List String) : List String :=
  match ddImages with
  | [] => ddImages
  | h :: _ =>
    (ddImages ++ List.replicate (oldNodes - ddImages.length) h) ++ ddImages

/-- The full merge of `AddDetails` into `CombinedDetails` (testnet.go
lines 125-170): the JSON round-trip replaces every field by `dd`'s value,
then `Files` is restored/padded/extended, `Nodes` is set to
`oldCD.Nodes + dd.Nodes`, and `Images` is padded/extended as in the code. -/
def mergeDetails (old dd : DeploymentDetails) : DeploymentDetails :=
  { dd with
    files := addDetailsFiles old.files old.nodes dd.files
    nodes := old.nodes + dd.nodes
    images := addDetailsImages old.nodes dd.images }

/-- The deployment-details part of the `TestNet` aggregate: the history
`details`, the merged view `combinedDetails`, and the index that `LDD`
points at. -/
structure TestNetDetails where
  details : List DeploymentDetails
  combinedDetails : DeploymentDetails
  lddIdx : Nat
  deriving Repr, DecidableEq

/-- `NewTestNet` (testnet.go lines 68-107), restricted to the details
state: `Details = [details]`, `CombinedDetails = details`, `LDD = &details[0]`. -/
def newTestNet (details : DeploymentDetails) : TestNetDetails :=
  { details := [details]
    combinedDetails := details
    lddIdx := 0 }

/-- `TestNet.AddDetails` (testnet.go lines 120-172): append `dd` to the
history, repoint `LDD` at the last entry, and merge into the combined
view.  `json.Marshal` of the payload struct cannot fail, so the early
return on a marshal error is not a reachable path of the model. -/
def addDetails (s : TestNetDetails) (dd : DeploymentDetails) : TestNetDetails :=
  { details := s.details ++ [dd]
    combinedDetails := mergeDetails s.combinedDetails dd
    lddIdx := s.details.length }

/-- Running a whole sequence of `AddDetails` calls from a fresh testnet. -/
def addDetailsSeq (init : DeploymentDetails) (dds : List DeploymentDetails) :
    TestNetDetails :=
  dds.foldl addDetails (newTestNet init)

/-- db.Node.  Union of the fields used by the claims: the row-store fields
of db/node.go (`id`, `testNet`, `server`, `localId`, `ip`) together with
the in-memory fields that testnet.go reads and writes (`absoluteNum`,
`label`). -/
structure Node where
  id : Int
  testNet : Int
  server : Int
  localId : Int
  ip : String
  absoluteNum : Nat
  label : String
  deriving Repr, DecidableEq

/-- The node-list part of the `TestNet` aggregate. -/
structure TestNetNodes where
  nodes : List Node
  newlyBuiltNodes : List Node
  deriving Repr, DecidableEq

/-- `TestNet.AddNode` (testnet.go lines 110-117): under the write lock,
set `node.AbsoluteNum = len(tn.Nodes)`, append the node to both
`NewlyBuiltNodes` and `Nodes`, and return `node.AbsoluteNum`. -/
def addNode (s : TestNetNodes) (node : Node) : TestNetNodes × Nat :=
  let node2 := { node with absoluteNum := s.nodes.length }
  ({ nodes := s.nodes ++ [node2]
     newlyBuiltNodes := s.newlyBuiltNodes ++ [node2] }, node2.absoluteNum)

/-- A sequence of `AddNode` calls (the mutex serializes concurrent
callers, so a sequence is the general case); returns the final state and
the list of returned absolute numbers, in call order. -/
def addNodeSeq (s : TestNetNodes) : List Node → TestNetNodes × List Nat
  | [] => (s, [])
  | n :: rest =>
    let p := addNode s n
    let q := addNodeSeq p.1 rest
    (q.1, p.2 :: q.2)

/-- db.InsertNode (db/node.go lines 94-119).  Each fallible database call
is a parameter; the result is the returned `(int, error)` pair, with the
error modelled as `Option String`.  When `stmt.Exec` fails the source
returns `-1, nil` (line 113), i.e. it drops the execution error. -/
def insertNode (beginRes : Except String Unit) (prepRes : Except String Unit)
    (execRes : Except String Unit) (lastIdRes : Except String Int) :
    Int × Option String :=
  match beginRes with
  | .error e => (-1, some e)
  | .ok _ =>
    match prepRes with
    | .error e => (-1, some e)
    | .ok _ =>
      match execRes with
      | .error _ => (-1, none)
      | .ok _ =>
        match lastIdRes with
        | .ok id => (id, none)
        | .error e => (0, some e)

/-- `TestNet.StoreNodes` (testnet.go lines 254-266).  The loop walks
`NewlyBuiltNodes` by value; when `labels != nil` it sets the loop copy's
`Label` to `labels[i]` (panicking with an index-out-of-range when `labels`
is too short), calls `db.InsertNode` on the copy and only logs any
insertion error; on completion the function returns `nil`.  The result is
`none` when the loop panics, otherwise `some` of the list of node values
passed to `InsertNode` (the returned error is always `nil` on this path,
independently of the `insertErr` outcomes). -/
def storeNodes (newlyBuiltNodes : List Node) (labels : Option (List String))
    (insertErr : Node → Option String) : Option (List Node) :=
  match newlyBuiltNodes with
  | [] => some []
  | node :: rest =>
    let labelled : Option Node :=
      match labels with
      | none => some node
      | some ls =>
        match ls with
        | [] => none
        | l :: _ => some { node with label := l }
    match labelled with
    | none => none
    | some node2 =>
      let _ := insertErr node2
      match storeNodes rest (labels.map fun ls => ls.drop 1) insertErr with
      | none => none
      | some tail => some (node2 :: tail)

/-- The single-quote character (U+0027). -/
def squote : Char := Char.ofNat 39

/-- The backslash character (U+005C). -/
def bslash : Char := Char.ofNat 92

/-- Whether `pat` is a prefix of `s`. -/
def listStarts : List Char → List Char → Bool
  | [], _ => true
  | _ :: _, [] => false
  | p :: ps, c :: cs => p == c && listStarts ps cs

/-- Helper for `strCount`: counts non-overlapping occurrences of `pat` in
`s`; `skip` is the number of characters of a previous match still to be
consumed. -/
def countSubAux (pat : List Char) : List Char → Nat → Nat
  | [], _ => 0
  | _ :: cs, Nat.succ k => countSubAux pat cs k
  | c :: cs, 0 =>
    if listStarts pat (c :: cs) then 1 + countSubAux pat cs (pat.length - 1)
    else countSubAux pat cs 0

/-- Go `strings.Count(s, pat)` for a non-empty `pat`: the number of
non-overlapping instances of `pat` in `s`, scanning left to right. -/
def strCount (s pat : String) : Nat :=
  countSubAux pat.toList s.toList 0

/-- Outcome of `DockerExecdLog`: either the precondition panic in
`logSanitizeAndStore`, or the remote command string handed to `Run`. -/
inductive ExecdLogResult where
  | panicked
  | ran (remoteCmd : String)
  deriving Repr, DecidableEq

/-- The command string built by `DockerExecdLog` (ssh/client.go lines
228-229): `docker exec -d <nodePre><node> bash -c '<command> 2>&1 > <outputFile>'`. -/
def dockerExecdLogCmd (nodePre : String) (node : Nat) (command outputFile : String) :
    String :=
  "docker exec -d " ++ nodePre ++ toString node ++ " bash -c " ++
    String.mk [squote] ++ command ++ " 2>&1 > " ++ outputFile ++ String.mk [squote]

/-- `Client.DockerExecdLog` (ssh/client.go lines 215-231).  It first runs
`logSanitizeAndStore`, which panics when
`strings.Count(command, "'") != strings.Count(command, "\\'")`; only
afterwards is the remote command built and passed to `Run`, so a failed
precondition aborts before any remote I/O. -/
def dockerExecdLog (nodePre outputFile : String) (node : Nat) (command : String) :
    ExecdLogResult :=
  if strCount command (String.mk [squote]) ≠ strCount command (String.mk [bslash, squote]) then
    ExecdLogResult.panicked
  else
    ExecdLogResult.ran (dockerExecdLogCmd nodePre node command outputFile)

/-- The slice of BuildState that `Client.Run` consults: `Stop()` and the
sticky error returned by `GetError()` (nil when no error was reported). -/
structure BuildStateView where
  stopped : Bool
  stickyErr : Option String
  deriving Repr, DecidableEq

/-- Result of `Client.Run`: the returned `(string, error)` pair together
with whether the remote command was actually executed
(`session.Get().CombinedOutput` reached). -/
structure RunOutcome where
  output : String
  err : Option String
  executed : Bool
  deriving Repr, DecidableEq

/-- `Client.Run` (ssh/client.go lines 126-150).  After acquiring a
session, it consults the `BuildState` registered for its server id: if
`bs.Stop()` it returns `("", bs.GetError())` at once; then a session error
is surfaced; otherwise the command is executed and a command error is
wrapped by `util.FormatError` (modelled abstractly by `formatErr`). -/
def clientRun (bs : BuildStateView) (sessionErr : Option String)
    (combinedOutput : String × Option String) (formatErr : String → String → String) :
    RunOutcome :=
  if bs.stopped then
    { output := "", err := bs.stickyErr, executed := false }
  else
    match sessionErr with
    | some e => { output := "", err := some e, executed := false }
    | none =>
      match combinedOutput with
      | (out, some e) => { output := out, err := some (formatErr out e), executed := true }
      | (out, none) => { output := out, err := none, executed := true }

/-- The iteration of `CreateConfigs` (blockchains/helpers/copy.go lines
155-185), parameterized by the list of `len(server.Ips)` per server,
starting at server index `i` with the shared `node` counter at `node`:
`for i, server := range servers { for j := range server.Ips { go fn(i, j, node); node++ } }`.
Each emitted triple is one `fn(serverNum, localNodeNum, absoluteNodeNum)`
invocation, in spawn order. -/
def createConfigsCallsAux : List Nat → Nat → Nat → List (Nat × Nat × Nat)
  | [], _, _ => []
  | c :: rest, i, node =>
    ((List.range c).map fun j => (i, j, node + j)) ++
      createConfigsCallsAux rest (i + 1) (node + c)

/-- The full list of `fn` invocations made by `CreateConfigs` over servers
whose ip-list lengths are `ipCounts`. -/
def createConfigsCalls (ipCounts : List Nat) : List (Nat × Nat × Nat) :=
  createConfigsCallsAux ipCounts 0 0

/-- Go semantics of the expression
`append(peers[:i], peers[i+1:]...)` (tendermint.go line 134) on a slice
`a` whose backing array has capacity at least `len(a)` (always true for a
slice grown by `append`): the copy happens in place, so the call returns
the element-removed list AND rewrites the shared backing array, whose
length-`len(a)` view becomes the removed list followed by the untouched
last element. -/
def goAppendRemove (a : List String) (i : Nat) : List String × List String :=
  let r := a.take i ++ a.drop (i + 1)
  (r, r ++ a.drop r.length)

/-- The tendermint start fan-out (tendermint.go lines 131-135), executed
under schedule `order` (the fan-out runs one goroutine per node; `order`
is the order in which they evaluate the peer-list expression).  Each
invocation for node `i` computes
`strings.Join(append(peers[:i], peers[i+1:]...), ",")` against the shared
`peers` slice, which the destructive `append` then leaves mutated for the
invocations scheduled later.  Returns the `(node, peer list)` pairs. -/
def tendermintStartLists (peers : List String) (order : List Nat) :
    List (Nat × List String) :=
  match order with
  | [] => []
  | i :: rest =>
    let (r, b) := goAppendRemove peers i
    (i, r) :: tendermintStartLists b rest

/-- An HTTP response as observed by the client: the status sent with the
first write (`http.Error` sets it explicitly, a bare `w.Write` defaults to
200) and the accumulated body.  Writes after the first keep the status and
append to the body; `http.Error` terminates its message with a newline. -/
structure HttpResponse where
  status : Nat
  body : String
  deriving Repr, DecidableEq

/-- `http.Error(w, msg, code)` on a fresh response writer followed by
further appends: helper building a response from the first write. -/
def respondError (code : Nat) (msg : String) : HttpResponse :=
  { status := code, body := msg ++ String.mk [Char.ofNat 10] }

/-- `handleNetAll` (rest handler, src/unnamed/part_000 lines 44-72).
Fallible collaborators are parameters: request decode, the node query
`db.GetAllNodesByTestNet`, and `netem.ApplyToAll`.  Decode failure →
`http.Error 400` and return; query failure → `http.Error 500` and return;
apply failure → `http.Error 500` but NO return, so execution falls
through to `w.Write([]byte("Success"))`, which appends to the 500 body;
otherwise a bare 200 `"Success"`. -/
def handleNetAll (decodeRes : Except String Unit) (nodesRes : Except String (List Node))
    (applyRes : Except String Unit) : HttpResponse :=
  match decodeRes with
  | .error e => respondError 400 e
  | .ok _ =>
    match nodesRes with
    | .error e => respondError 500 e
    | .ok _ =>
      match applyRes with
      | .error e =>
        let r := respondError 500 e
        { r with body := r.body ++ "Success" }
      | .ok _ => { status := 200, body := "Success" }

/-- `addOutage` (src/unnamed/part_000 lines 124-169).  Parameters model
`strconv.Atoi` on the two path segments, `db.GetAllNodesByTestNet`,
`db.GetNodeByAbsNum` for each endpoint, and `netem.MakeOutage`.  Atoi
failure → 400; query or node-lookup failure → 404; backend failure → 500;
otherwise 200 `"Success"`.  Every error branch here returns. -/
def addOutage (atoi1 atoi2 : Except String Int) (nodesRes : Except String (List Node))
    (find1 find2 : Except String Node) (outageRes : Except String Unit) : HttpResponse :=
  match atoi1 with
  | .error e => respondError 400 e
  | .ok _ =>
    match atoi2 with
    | .error e => respondError 400 e
    | .ok _ =>
      match nodesRes with
      | .error e => respondError 404 e
      | .ok _ =>
        match find1 with
        | .error e => respondError 404 e
        | .ok _ =>
          match find2 with
          | .error e => respondError 404 e
          | .ok _ =>
            match outageRes with
            | .error e => respondError 500 e
            | .ok _ => { status := 200, body := "Success" }

/-- A concrete node used by the closed witnesses. -/
def sampleNode : Node :=
  { id := 0, testNet := 1, server := 1, localId := 0, ip := "10.0.0.1",
    absoluteNum := 99, label := "old" }

/-- The iteration space in the words of the spec (§4.5): for each
`(server, localNodeIdx)` pair with `localNodeIdx ∈ [0, len(server.nodeIPs))`,
the callback receives `(serverNum, localNodeNum, absoluteNodeNum)` where
`absoluteNodeNum` is assigned in lexicographic order over
`(serverNum, localNodeNum)` starting at 0 — i.e. the offset of server `i`
is the sum of the earlier servers' node counts.  Stated as a second
definition to be compared with `createConfigsCalls`, which follows the
source loop. -/
def createConfigsCallsSpec (ipCounts : List Nat) : List (Nat × Nat × Nat) :=
  (List.range ipCounts.length).flatMap fun i =>
    (List.range (ipCounts.getD i 0)).map fun j => (i, j, (ipCounts.take i).sum + j)

/-! ## Theorems -/

/-- Claim C9: there is a failure path of `InsertNode` that returns `nil`
as the error: when execution of the prepared INSERT statement fails, it
returns `(-1, nil)` instead of surfacing the insertion error. -/
theorem C9_insertNode_nil_error (e : String) (lastIdRes : Except String Int) :
    insertNode (Except.ok ()) (Except.ok ()) (Except.error e) lastIdRes = (-1, none) := by
  rfl

/-- Claim C7: when the `BuildState` registered for the client's server id
reports `Stop()`, `Client.Run` returns `("", GetError())` and never
reaches the remote command execution. -/
theorem C7_run_short_circuit (bs : BuildStateView) (sessionErr : Option String)
    (combinedOutput : String × Option String) (formatErr : String → String → String)
    (h : bs.stopped = true) :
    clientRun bs sessionErr combinedOutput formatErr =
      { output := "", err := bs.stickyErr, executed := false } := by
  simp [clientRun, h]

/-- Witness for C7 at a concrete cancelled build. -/
theorem C7_run_short_circuit_witness :
    clientRun { stopped := true, stickyErr := some "build aborted" } none ("out", none)
        (fun _ e => e) =
      { output := "", err := some "build aborted", executed := false } :=
  C7_run_short_circuit { stopped := true, stickyErr := some "build aborted" } none
    ("out", none) (fun _ e => e) rfl

/-- Claim C3: whenever the number of single-quote characters in the
command differs from the number of escaped single-quote sequences,
`DockerExecdLog` panics in `logSanitizeAndStore`, before any remote
command string is built or run. -/
theorem C3_dockerExecdLog_panics_on_unescaped_quote
    (nodePre outputFile : String) (node : Nat) (command : String)
    (h : strCount command (String.mk [squote]) ≠ strCount command (String.mk [bslash, squote])) :
    dockerExecdLog nodePre outputFile node command = ExecdLogResult.panicked := by
  simp [dockerExecdLog, h]

/-- Witness for C3 at the spec example E4, `DockerExecdLog(0, "echo 'hi'")`:
the command has 2 single quotes and 0 escaped quotes, and the call
panics. -/
theorem C3_dockerExecdLog_panics_witness :
    strCount (String.mk ([]) ++ "echo " ++ String.mk [squote] ++ "hi" ++ String.mk [squote])
        (String.mk [squote]) = 2 ∧
    strCount (String.mk ([]) ++ "echo " ++ String.mk [squote] ++ "hi" ++ String.mk [squote])
        (String.mk [bslash, squote]) = 0 ∧
    dockerExecdLog "whiteblock-node" "/output.log" 0
        (String.mk ([]) ++ "echo " ++ String.mk [squote] ++ "hi" ++ String.mk [squote]) =
      ExecdLogResult.panicked :=
  ⟨by decide, by decide,
    C3_dockerExecdLog_panics_on_unescaped_quote "whiteblock-node" "/output.log" 0
      (String.mk ([]) ++ "echo " ++ String.mk [squote] ++ "hi" ++ String.mk [squote])
      (by decide)⟩

/-- Helper: `addDetails` preserves the nodes-sum invariant. -/
theorem addDetails_nodes_sum (s : TestNetDetails) (dd : DeploymentDetails)
    (h : s.combinedDetails.nodes = (s.details.map DeploymentDetails.nodes).sum) :
    (addDetails s dd).combinedDetails.nodes =
      ((addDetails s dd).details.map DeploymentDetails.nodes).sum := by
  simp [addDetails, mergeDetails, h]

/-- Helper: the nodes-sum invariant is preserved by any `foldl` of
`addDetails`. -/
theorem addDetails_foldl_nodes_sum (dds : List DeploymentDetails) :
    ∀ s : TestNetDetails,
      s.combinedDetails.nodes = (s.details.map DeploymentDetails.nodes).sum →
      (dds.foldl addDetails s).combinedDetails.nodes =
        ((dds.foldl addDetails s).details.map DeploymentDetails.nodes).sum := by
  induction dds with
  | nil => intro s h; simpa using h
  | cons dd rest ih =>
    intro s h
    exact ih (addDetails s dd) (addDetails_nodes_sum s dd h)

/-- Claim C5: after any sequence of `AddDetails` calls on a fresh testnet,
`combinedDetails.nodes` equals the sum of `details[i].nodes` over the
recorded deployment history. -/
theorem C5_combined_nodes_sum (init : DeploymentDetails) (dds : List DeploymentDetails) :
    (addDetailsSeq init dds).combinedDetails.nodes =
      ((addDetailsSeq init dds).details.map DeploymentDetails.nodes).sum := by
  exact addDetails_foldl_nodes_sum dds (newTestNet init) (by simp [newTestNet])

/-- Claim C1, settled against the code at the spec example E2: after
`NewTestNet({nodes:2, files:[{a:A}], images:[img1]})` and one
`AddDetails({nodes:1, files:[{b:B}], images:[img2]})`, the node count and
file merge match the claim, but the merged images are
`[img2, img2, img2]`, not `[img1, img1, img2]`: the JSON round-trip in
`AddDetails` already replaced `CombinedDetails.Images` with `dd.Images`
before the padding loop runs, and unlike `Files` the old value is never
restored, so the padding duplicates the new first image. -/
theorem C1_addDetails_images_bug :
    (addDetailsSeq
        { servers := [], blockchain := "", nodes := 2, images := ["img1"],
          files := [[("a", "A")]] }
        [{ servers := [], blockchain := "", nodes := 1, images := ["img2"],
           files := [[("b", "B")]] }]).combinedDetails.nodes = 3 ∧
    (addDetailsSeq
        { servers := [], blockchain := "", nodes := 2, images := ["img1"],
          files := [[("a", "A")]] }
        [{ servers := [], blockchain := "", nodes := 1, images := ["img2"],
           files := [[("b", "B")]] }]).combinedDetails.files =
      [[("a", "A")], [], [("b", "B")]] ∧
    (addDetailsSeq
        { servers := [], blockchain := "", nodes := 2, images := ["img1"],
          files := [[("a", "A")]] }
        [{ servers := [], blockchain := "", nodes := 1, images := ["img2"],
           files := [[("b", "B")]] }]).combinedDetails.images =
      ["img2", "img2", "img2"] ∧
    (addDetailsSeq
        { servers := [], blockchain := "", nodes := 2, images := ["img1"],
          files := [[("a", "A")]] }
        [{ servers := [], blockchain := "", nodes := 1, images := ["img2"],
           files := [[("b", "B")]] }]).combinedDetails.images ≠
      ["img1", "img1", "img2"] := by
  refine ⟨by decide, by decide, by decide, by decide⟩

/-- Claim C8: the control-plane handlers report 400 on request-decode
failure, 404 on missing testnet/node, 500 on backend failure and
otherwise 200 with body `"Success"`; in particular, when
`netem.ApplyToAll` fails in `handleNetAll`, the response carries status
500 and its body is not `"Success"` (it is the error text with
`"Success"` appended by the fall-through write). -/
theorem C8_handler_status_codes :
    (∀ (e : String) (nodesRes : Except String (List Node)) (applyRes : Except String Unit),
      (handleNetAll (Except.error e) nodesRes applyRes).status = 400) ∧
    (∀ (e : String) (applyRes : Except String Unit),
      (handleNetAll (Except.ok ()) (Except.error e) applyRes).status = 500) ∧
    (∀ ns : List Node,
      handleNetAll (Except.ok ()) (Except.ok ns) (Except.ok ()) =
        { status := 200, body := "Success" }) ∧
    (∀ (ns : List Node) (e : String),
      (handleNetAll (Except.ok ()) (Except.ok ns) (Except.error e)).status = 500 ∧
      (handleNetAll (Except.ok ()) (Except.ok ns) (Except.error e)).body ≠ "Success") ∧
    (∀ (e : String) (a2 : Except String Int) (ns : Except String (List Node))
        (f1 f2 : Except String Node) (o : Except String Unit),
      (addOutage (Except.error e) a2 ns f1 f2 o).status = 400) ∧
    (∀ (k : Int) (e : String) (ns : Except String (List Node)) (f1 f2 : Except String Node)
        (o : Except String Unit),
      (addOutage (Except.ok k) (Except.error e) ns f1 f2 o).status = 400) ∧
    (∀ (k1 k2 : Int) (e : String) (f1 f2 : Except String Node) (o : Except String Unit),
      (addOutage (Except.ok k1) (Except.ok k2) (Except.error e) f1 f2 o).status = 404) ∧
    (∀ (k1 k2 : Int) (ns : List Node) (e : String) (f2 : Except String Node)
        (o : Except String Unit),
      (addOutage (Except.ok k1) (Except.ok k2) (Except.ok ns) (Except.error e) f2 o).status
        = 404) ∧
    (∀ (k1 k2 : Int) (ns : List Node) (n1 : Node) (e : String) (o : Except String Unit),
      (addOutage (Except.ok k1) (Except.ok k2) (Except.ok ns) (Except.ok n1)
          (Except.error e) o).status = 404) ∧
    (∀ (k1 k2 : Int) (ns : List Node) (n1 n2 : Node) (e : String),
      (addOutage (Except.ok k1) (Except.ok k2) (Except.ok ns) (Except.ok n1) (Except.ok n2)
          (Except.error e)).status = 500) ∧
    (∀ (k1 k2 : Int) (ns : List Node) (n1 n2 : Node),
      addOutage (Except.ok k1) (Except.ok k2) (Except.ok ns) (Except.ok n1) (Except.ok n2)
          (Except.ok ()) = { status := 200, body := "Success" }) := by
  refine ⟨fun e n a => rfl, fun e a => rfl, fun ns => rfl, fun ns e => ⟨rfl, ?_⟩,
    fun e a2 ns f1 f2 o => rfl, fun k e ns f1 f2 o => rfl, fun k1 k2 e f1 f2 o => rfl,
    fun k1 k2 ns e f2 o => rfl, fun k1 k2 ns n1 e o => rfl, fun k1 k2 ns n1 n2 e => rfl,
    fun k1 k2 ns n1 n2 => rfl⟩
  intro h
  have hlen := congrArg String.length h
  simp [handleNetAll, respondError, String.length_append] at hlen
  exact absurd hlen.2 (by decide)

/-- Helper: a sequence of `AddNode` calls appends one common list `built`
to both `nodes` and `newlyBuiltNodes`, whose absolute numbers (and the
returned values) are `range' (len nodes) (len ns)`. -/
theorem addNodeSeq_spec (ns : List Node) :
    ∀ s : TestNetNodes, ∃ built : List Node,
      (addNodeSeq s ns).1.nodes = s.nodes ++ built ∧
      (addNodeSeq s ns).1.newlyBuiltNodes = s.newlyBuiltNodes ++ built ∧
      built.map Node.absoluteNum = List.range' s.nodes.length ns.length ∧
      (addNodeSeq s ns).2 = List.range' s.nodes.length ns.length := by
  induction ns with
  | nil =>
    intro s
    exact ⟨[], by simp [addNodeSeq], by simp [addNodeSeq], by simp [addNodeSeq],
      by simp [addNodeSeq]⟩
  | cons n rest ih =>
    intro s
    obtain ⟨built2, h1, h2, h3, h4⟩ := ih (addNode s n).1
    have hnodes : (addNode s n).1.nodes =
        s.nodes ++ [{ n with absoluteNum := s.nodes.length }] := rfl
    have hnew : (addNode s n).1.newlyBuiltNodes =
        s.newlyBuiltNodes ++ [{ n with absoluteNum := s.nodes.length }] := rfl
    have hlen : (addNode s n).1.nodes.length = s.nodes.length + 1 := by
      rw [hnodes]; simp
    rw [hlen] at h3 h4
    refine ⟨{ n with absoluteNum := s.nodes.length } :: built2, ?_, ?_, ?_, ?_⟩
    · have hfst : (addNodeSeq s (n :: rest)).1 = (addNodeSeq (addNode s n).1 rest).1 := rfl
      rw [hfst, h1, hnodes]
      simp
    · have hfst : (addNodeSeq s (n :: rest)).1 = (addNodeSeq (addNode s n).1 rest).1 := rfl
      rw [hfst, h2, hnew]
      simp
    · rw [List.map_cons, h3, List.length_cons, List.range'_succ]
    · have hsnd : (addNodeSeq s (n :: rest)).2 =
          (addNode s n).2 :: (addNodeSeq (addNode s n).1 rest).2 := rfl
      have hret : (addNode s n).2 = s.nodes.length := rfl
      rw [hsnd, h4, hret, List.length_cons, List.range'_succ]

/-- Claim C4: starting from an empty node list, a sequence of `AddNode`
calls assigns `absoluteNum` values forming the contiguous prefix
`0..N-1` with no collisions; each call returns the pre-call length and
appends the node to both `nodes` and `newlyBuiltNodes`. -/
theorem C4_addNode_contiguous (s : TestNetNodes) (ns : List Node) (h : s.nodes = []) :
    (addNodeSeq s ns).1.nodes.map Node.absoluteNum = List.range ns.length ∧
    (addNodeSeq s ns).2 = List.range ns.length ∧
    ((addNodeSeq s ns).1.nodes.map Node.absoluteNum).Nodup ∧
    (addNodeSeq s ns).1.newlyBuiltNodes =
      s.newlyBuiltNodes ++ (addNodeSeq s ns).1.nodes := by
  obtain ⟨built, h1, h2, h3, h4⟩ := addNodeSeq_spec ns s
  rw [h] at h1 h3
  simp only [List.length_nil, List.nil_append] at h1 h3
  have hmap : (addNodeSeq s ns).1.nodes.map Node.absoluteNum = List.range ns.length := by
    rw [h1, h3, List.range_eq_range']
  refine ⟨hmap, ?_, ?_, ?_⟩
  · rw [h4, h, List.length_nil, List.range_eq_range']
  · rw [hmap]; exact List.nodup_range _
  · rw [h2, h1]

/-- Witness for C4: two `AddNode` calls on a fresh testnet. -/
theorem C4_addNode_contiguous_witness :
    (addNodeSeq { nodes := [], newlyBuiltNodes := [] } [sampleNode, sampleNode]).1.nodes.map
        Node.absoluteNum = List.range [sampleNode, sampleNode].length ∧
    (addNodeSeq { nodes := [], newlyBuiltNodes := [] } [sampleNode, sampleNode]).2 =
      List.range [sampleNode, sampleNode].length ∧
    ((addNodeSeq { nodes := [], newlyBuiltNodes := [] }
        [sampleNode, sampleNode]).1.nodes.map Node.absoluteNum).Nodup ∧
    (addNodeSeq { nodes := [], newlyBuiltNodes := [] }
        [sampleNode, sampleNode]).1.newlyBuiltNodes =
      ({ nodes := [], newlyBuiltNodes := [] } : TestNetNodes).newlyBuiltNodes ++
        (addNodeSeq { nodes := [], newlyBuiltNodes := [] } [sampleNode, sampleNode]).1.nodes :=
  C4_addNode_contiguous { nodes := [], newlyBuiltNodes := [] } [sampleNode, sampleNode] rfl

/-- Helper: the absolute numbers emitted by the `CreateConfigs` loop from
counter value `node` are `range' node (sum of the ip counts)`. -/
theorem createConfigsCallsAux_map_third (cs : List Nat) :
    ∀ i node, (createConfigsCallsAux cs i node).map (fun c => c.2.2) =
      List.range' node cs.sum := by
  induction cs with
  | nil => intro i node; simp [createConfigsCallsAux]
  | cons c rest ih =>
    intro i node
    simp only [createConfigsCallsAux, List.map_append, List.map_map, ih, List.sum_cons]
    have hcomp : ((fun t : Nat × Nat × Nat => t.2.2) ∘ fun j => (i, j, node + j)) =
        (fun j => node + j) := rfl
    rw [hcomp, ← List.range'_eq_map_range, List.range'_append_1, Nat.add_comm rest.sum c]

/-- Helper: the `CreateConfigs` loop, started at server `i` and counter
`node`, enumerates exactly the lexicographic pairs with offsets given by
partial sums. -/
theorem createConfigsCallsAux_eq (cs : List Nat) :
    ∀ i node, createConfigsCallsAux cs i node =
      (List.range cs.length).flatMap fun k =>
        (List.range (cs.getD k 0)).map fun j => (i + k, j, node + (cs.take k).sum + j) := by
  induction cs with
  | nil => intro i node; simp [createConfigsCallsAux]
  | cons c rest ih =>
    intro i node
    rw [List.length_cons, List.range_succ_eq_map, List.flatMap_cons, List.flatMap_map]
    simp only [createConfigsCallsAux]
    congr 1
    rw [ih (i + 1) (node + c)]
    congr 1
    funext k
    simp only [List.getD_cons_succ, List.take_succ_cons, List.sum_cons, Nat.succ_eq_add_one]
    have h2 : (fun j => (i + (k + 1), j, node + (c + (List.take k rest).sum) + j)) =
        (fun j => (i + 1 + k, j, node + c + (List.take k rest).sum + j)) := by
      funext j
      have e1 : i + (k + 1) = i + 1 + k := by omega
      have e2 : node + (c + (List.take k rest).sum) + j =
          node + c + (List.take k rest).sum + j := by omega
      rw [e1, e2]
    rw [h2]

/-- Claim C6: `CreateConfigs` invokes `fn` exactly once per
`(server, localNodeIdx)` pair, in lexicographic order with the
`absoluteNodeNum` offset of server `i` equal to the sum of the earlier
servers' node counts; the absolute numbers are exactly `[0, total)`, the
total number of invocations is the sum of the counts, and for `S` servers
of `N` nodes each it is `S·N`. -/
theorem C6_createConfigs_iteration (ipCounts : List Nat) :
    createConfigsCalls ipCounts = createConfigsCallsSpec ipCounts ∧
    (createConfigsCalls ipCounts).map (fun c => c.2.2) = List.range ipCounts.sum ∧
    (createConfigsCalls ipCounts).length = ipCounts.sum ∧
    ∀ S N : Nat, (createConfigsCalls (List.replicate S N)).length = S * N := by
  have hthird : ∀ cs : List Nat,
      (createConfigsCalls cs).map (fun c => c.2.2) = List.range cs.sum := by
    intro cs
    have := createConfigsCallsAux_map_third cs 0 0
    rw [createConfigsCalls, this, List.range_eq_range']
  have hlen : ∀ cs : List Nat, (createConfigsCalls cs).length = cs.sum := by
    intro cs
    have := congrArg List.length (hthird cs)
    simpa using this
  refine ⟨?_, hthird ipCounts, hlen ipCounts, ?_⟩
  · have := createConfigsCallsAux_eq ipCounts 0 0
    simpa [createConfigsCalls, createConfigsCallsSpec] using this
  · intro S N
    rw [hlen (List.replicate S N), List.sum_replicate, smul_eq_mul]

/-- Claim C2, settled against the code: with harvested peers
`["A", "B", "C"]`, the start fan-out evaluated in schedule order
`0, 1, 2` hands node 1 and node 2 the list `["B", "C"]` — node 1's list
is not a permutation of the peers with its own entry removed
(`["A", "C"]`), because the destructive
`append(peers[:i], peers[i+1:]...)` shifts the shared backing array of
`peers` in place.  Moreover for three distinct peers EVERY schedule (all
six orders) produces a wrong list for at least one node, so no
interleaving of the concurrent fan-out satisfies the claim. -/
theorem C2_tendermint_peer_lists_bug :
    tendermintStartLists ["A", "B", "C"] [0, 1, 2] =
      [(0, ["B", "C"]), (1, ["B", "C"]), (2, ["B", "C"])] ∧
    ¬ List.Perm ["B", "C"] (["A", "B", "C"].eraseIdx 1) ∧
    ∀ order ∈ [[0, 1, 2], [0, 2, 1], [1, 0, 2], [1, 2, 0], [2, 0, 1], [2, 1, 0]],
      ∃ p ∈ tendermintStartLists ["A", "B", "C"] order,
        ¬ List.Perm p.2 (["A", "B", "C"].eraseIdx p.1) := by
  refine ⟨by decide, by decide, by decide⟩

/-- Claim C10, refuted at a concrete input: with one newly built node and
a non-nil empty labels slice, `StoreNodes` panics on the out-of-range
access `labels[0]` (modelled by `none`) instead of returning a nil
error. -/
theorem C10_storeNodes_counterexample :
    storeNodes [sampleNode] (some []) (fun _ => none) = none := by
  rfl

/-- Helper: with nil labels, `StoreNodes` completes and inserts exactly
the newly built nodes, unmodified. -/
theorem storeNodes_none_labels (insertErr : Node → Option String) :
    ∀ newly : List Node, storeNodes newly none insertErr = some newly := by
  intro newly
  induction newly with
  | nil => rfl
  | cons n rest ih => simp [storeNodes, ih]

/-- Helper: with labels at least as long as the node list, `StoreNodes`
completes, inserting one relabelled node per newly built node. -/
theorem storeNodes_enough_labels (insertErr : Node → Option String) :
    ∀ (newly : List Node) (ls : List String), newly.length ≤ ls.length →
      ∃ inserted, storeNodes newly (some ls) insertErr = some inserted ∧
        inserted.length = newly.length := by
  intro newly
  induction newly with
  | nil => intro ls _; exact ⟨[], rfl, rfl⟩
  | cons n rest ih =>
    intro ls hle
    match ls with
    | [] => simp at hle
    | l :: ls2 =>
      obtain ⟨tail, htail, hlen⟩ := ih ls2 (by simpa using hle)
      refine ⟨{ n with label := l } :: tail, ?_, by simp [hlen]⟩
      simp [storeNodes, htail]

/-- Claim C10 as amended: `StoreNodes` returns a nil error whenever
`labels` is nil or at least as long as `newlyBuiltNodes` — insertion
failures are only logged, never propagated — and with nil labels the
nodes passed to `InsertNode` are exactly the newly built nodes with
unmodified `Label` fields; when `labels` is non-nil but shorter than
`newlyBuiltNodes`, the call panics with an index-out-of-range instead of
returning. -/
theorem C10_storeNodes_amended (newly : List Node) (labels : Option (List String))
    (insertErr : Node → Option String)
    (h : labels = none ∨ ∃ ls, labels = some ls ∧ newly.length ≤ ls.length) :
    ∃ inserted, storeNodes newly labels insertErr = some inserted ∧
      inserted.length = newly.length ∧
      (labels = none → inserted = newly) := by
  rcases h with h | ⟨ls, hls, hle⟩
  · subst h
    exact ⟨newly, storeNodes_none_labels insertErr newly, rfl, fun _ => rfl⟩
  · subst hls
    obtain ⟨inserted, hrun, hlen⟩ := storeNodes_enough_labels insertErr newly ls hle
    exact ⟨inserted, hrun, hlen, fun hcontra => by cases hcontra⟩

/-- Witness for the amended C10: one node, one label, a failing
insertion; the call still returns a nil error. -/
theorem C10_storeNodes_amended_witness :
    ∃ inserted,
      storeNodes [sampleNode] (some ["lab"]) (fun _ => some "insert failed") = some inserted ∧
      inserted.length = [sampleNode].length ∧
      ((some ["lab"] : Option (List String)) = none → inserted = [sampleNode]) :=
  C10_storeNodes_amended [sampleNode] (some ["lab"]) (fun _ => some "insert failed")
    (Or.inr ⟨["lab"], rfl, by decide⟩)

end Genesis
